import Mathlib

/-!
Verification of the CourseKey repository against its specification.

The development shallowly embeds two groups of code:

* The chat frontend (`frontend/src/App.js`) and the extension content
  script (`extension/content-script.js`), which are present in the
  repository: their state updates are embedded as pure state-passing
  functions.

* The Canvas-to-storage crawler (`crawl_canvas_to_supabase.py`), whose
  implementation file is not part of the source tree (only the runner
  script `run.sh` invokes it).  Those definitions are modelled from the
  specification and are marked as such in their doc comments.
-/

namespace CourseKey

/-! ## Chat frontend (`frontend/src/App.js`) -/

/-- A chat message as stored in the React `messages` state: a role
(`"user"` or `"ai"`), a content string, and the `isStreaming` flag
(absent in JS, i.e. `undefined`/falsy, is modelled as `false`). -/
structure Msg where
  role : String
  content : String
  isStreaming : Bool := false
deriving Repr, DecidableEq

/-- The part of the React component state that `sendMessage` reads and
writes: the `messages` list, the `input` box, the `isStreaming` flag and
the multi-armed-bandit `buttonVariant`. -/
structure ChatState where
  messages : List Msg
  input : String
  isStreaming : Bool
  buttonVariant : String
deriving Repr, DecidableEq

/-- An HTTP request issued by the frontend during `sendMessage`. -/
inductive HttpReq where
  | banditConversion (variant : String)
  | ask (question : String)
deriving Repr, DecidableEq

/-- Embedding of the JavaScript `String.prototype.trim` builtin: strip whitespace
from both ends of the string. -/
def jsTrim (s : String) : String :=
  String.mk
    (((s.data.dropWhile Char.isWhitespace).reverse.dropWhile
      Char.isWhitespace).reverse)

/-- Embedding of `sendMessage` (App.js lines 171-268): trim the input;
if the trimmed input is falsy (empty) return immediately; otherwise
append the user message and an AI placeholder, set the streaming flag,
clear the input, and issue the bandit-conversion request (when a variant
is set) followed by the `/api/ask` request.  The returned list records
the HTTP requests issued, in order. -/
def sendMessage (st : ChatState) : ChatState × List HttpReq :=
  let userMessage := jsTrim st.input
  if userMessage = "" then (st, [])
  else
    ({ st with
        messages := st.messages ++
          [{ role := "user", content := userMessage },
           { role := "ai", content := "", isStreaming := true }],
        isStreaming := true,
        input := "" },
     (if st.buttonVariant ≠ "" then [HttpReq.banditConversion st.buttonVariant] else [])
       ++ [HttpReq.ask userMessage])

/-! ## Extension-mode session check (App.js lines 27-50) -/

/-- A browser key-value store (`localStorage` / `sessionStorage`),
modelled as an association list.  `getItem` returns `none` for a missing
key (JS `null`). -/
def storeGet (store : List (String × String)) (key : String) : Option String :=
  (store.find? (fun p => p.1 = key)).map Prod.snd

/-- The `removeItem` operation: drop every binding of the key. -/
def storeRemove (store : List (String × String)) (key : String) :
    List (String × String) :=
  store.filter (fun p => p.1 ≠ key)

/-- The `setItem` operation: replace any previous binding of the key. -/
def storeSet (store : List (String × String)) (key val : String) :
    List (String × String) :=
  (key, val) :: storeRemove store key

/-- The browser-visible state the mount-time session check touches. -/
structure WebState where
  localStore : List (String × String)
  sessionStore : List (String × String)
  messages : List Msg
deriving Repr, DecidableEq

/-- The chat-history `localStorage` key used by App.js. -/
def STORAGE_KEY : String := "coursekey-chat-messages"

/-- The session-id `sessionStorage` key used by App.js. -/
def SESSION_KEY : String := "coursekey-session-id"

/-- JS truthiness of the result of `getItem`: `null` and `""` are falsy. -/
def optTruthy : Option String → Bool
  | none => false
  | some s => s ≠ ""

/-- Embedding of the mount-time session-check effect (App.js lines
27-50): in extension (iframe) mode compute `currentSessionId =
Date.now().toString()` (the mount instant `now` is a parameter), read
the stored id, and when the stored id is falsy or differs from the
fresh id, remove the stored chat history, reset the message list and
store the fresh id.  Outside extension mode nothing happens. -/
def sessionCheck (inIframe : Bool) (now : Nat) (st : WebState) : WebState :=
  if inIframe then
    let currentSessionId := toString now
    let lastSessionId := storeGet st.sessionStore SESSION_KEY
    if !(optTruthy lastSessionId) || lastSessionId ≠ some currentSessionId then
      { localStore := storeRemove st.localStore STORAGE_KEY,
        sessionStore := storeSet st.sessionStore SESSION_KEY currentSessionId,
        messages := [] }
    else st
  else st

/-! ## Content script (`extension/content-script.js`) -/

/-- The frontend origin the content script trusts (content-script.js
line 11). -/
def FRONTEND_URL : String := "http://localhost:3000"

/-- The page state that the handlers of the content script manipulate, abstracting
the DOM: whether the fullscreen overlay carries `coursekey-hidden`,
whether the sidebar carries `coursekey-expanded` (vs `coursekey-collapsed`),
whether the floating toggle button is displayed, whether `body` scrolling
is locked (`overflow: hidden`), and whether the expand-to-fullscreen
button is present in the sidebar header. -/
structure PageState where
  overlayHidden : Bool
  sidebarExpanded : Bool
  toggleVisible : Bool
  bodyScrollLocked : Bool
  expandBtnPresent : Bool
deriving Repr, DecidableEq

/-- Which iframe a `postMessage` is directed at. -/
inductive IframeTarget where
  | sidebar
  | fullscreen
deriving Repr, DecidableEq

/-- A `postMessage` sent by the content script to an iframe. -/
structure Posted where
  target : IframeTarget
  type : String
  messages : List Msg
deriving Repr, DecidableEq

/-- The payload of a window `message` event: the event origin and the
`data` object (`none` models a missing/nullish `data`). -/
structure MessageEvent where
  origin : String
  data : Option (String × List Msg)
deriving Repr, DecidableEq

/-- Embedding of `openFullscreen` (content-script.js lines 190-265)
restricted to its synchronous DOM effects: show the overlay, lock body
scrolling, collapse the sidebar if it is expanded, and hide the toggle
button.  (The delayed message-sync callbacks it schedules are timers,
not part of the same turn of the handler.) -/
def openFullscreen (st : PageState) : PageState :=
  { st with
      overlayHidden := false,
      bodyScrollLocked := true,
      sidebarExpanded := false,
      toggleVisible := false }

/-- Embedding of `minimizeFullscreen` (content-script.js lines 267-318):
hide the overlay, restore scrolling, expand the sidebar, re-add the
expand button, hide the toggle button, and request the messages held by
the fullscreen iframe, for syncing. -/
def minimizeFullscreen (st : PageState) : PageState × List Posted :=
  ({ st with
      overlayHidden := true,
      bodyScrollLocked := false,
      sidebarExpanded := true,
      expandBtnPresent := true,
      toggleVisible := false },
   [{ target := IframeTarget.fullscreen, type := "coursekey-request-messages",
      messages := [] }])

/-- Embedding of `closeFullscreen` (content-script.js lines 320-342):
hide the overlay, restore scrolling, show the toggle button, collapse
the sidebar and remove the expand button. -/
def closeFullscreen (st : PageState) : PageState :=
  { st with
      overlayHidden := true,
      bodyScrollLocked := false,
      toggleVisible := true,
      sidebarExpanded := false,
      expandBtnPresent := false }

/-- Embedding of the window `message` listener installed by
`createSidebar` (content-script.js lines 113-145).  The handler first
checks `event.origin !== FRONTEND_URL` and returns if so; otherwise it
dispatches on `event.data.type`: open/close/minimize fullscreen, and
forwards `coursekey-send-messages` payloads to whichever iframe is
currently visible.  Returns the new page state and the `postMessage`s
sent. -/
def messageListener (ev : MessageEvent) (st : PageState) :
    PageState × List Posted :=
  if ev.origin ≠ FRONTEND_URL then (st, [])
  else
    match ev.data with
    | none => (st, [])
    | some (ty, msgs) =>
      if ty = "coursekey-open-fullscreen" then (openFullscreen st, [])
      else if ty = "coursekey-close-fullscreen" then (closeFullscreen st, [])
      else if ty = "coursekey-minimize-fullscreen" then minimizeFullscreen st
      else if ty = "coursekey-send-messages" then
        let targetIframe :=
          if !st.overlayHidden then IframeTarget.fullscreen
          else IframeTarget.sidebar
        (st, [{ target := targetIframe, type := "coursekey-sync-messages",
                messages := msgs }])
      else (st, [])

/-! ## Crawler: URL canonicalization

The crawler implementation file (`crawl_canvas_to_supabase.py`) is not
part of the source tree; only the runner script `run.sh` invokes it.
The definitions in the remainder of this file are therefore modelled
from the specification, as their doc comments state.  URLs are
represented as lists of characters. -/

/-- Modelled from the spec: `canonicalize` strips the query string.
Everything from the first `?` on is dropped. -/
def stripQuery (cs : List Char) : List Char :=
  cs.takeWhile (fun c => c ≠ '?')

/-- Modelled from the spec: `canonicalize` normalizes trailing slashes.
All trailing `/` characters are dropped. -/
def stripSlashes (cs : List Char) : List Char :=
  (cs.reverse.dropWhile (fun c => c = '/')).reverse

/-- Modelled from the spec: `canonicalize` decodes HTML entities.  The
entities `&amp;`, `&lt;` and `&gt;` are decoded; other characters pass
through unchanged. -/
def decodeEntities : List Char → List Char
  | [] => []
  | '&' :: 'a' :: 'm' :: 'p' :: ';' :: rest => '&' :: decodeEntities rest
  | '&' :: 'l' :: 't' :: ';' :: rest => '<' :: decodeEntities rest
  | '&' :: 'g' :: 't' :: ';' :: rest => '>' :: decodeEntities rest
  | c :: rest => c :: decodeEntities rest

/-- Modelled from the spec: the dedup key of the crawler.  `canonicalize`
strips the query string, normalizes trailing slashes and decodes HTML
entities (missing from `src/`; the implementation file is not in the
source tree). -/
def canonicalize (cs : List Char) : List Char :=
  decodeEntities (stripSlashes (stripQuery cs))

/-- HTML-entity encoding of a single character, used to describe a URL
that appears entity-encoded in a document: `&` becomes `&amp;`, every
other character is unchanged. -/
def encChar (c : Char) : List Char :=
  if c = '&' then ['&', 'a', 'm', 'p', ';'] else [c]

/-- HTML-entity encoding of a whole URL (characterwise `encChar`). -/
def encodeAmp : List Char → List Char
  | [] => []
  | c :: rest => encChar c ++ encodeAmp rest

/-- A syntactic variant of the resource URL `base`: optionally a
trailing slash, optionally a query string `q`, optionally written with
HTML-entity-encoded characters.  Two URLs built from the same `base`
"differ only in query string, trailing slash, or HTML-entity-encoded
characters". -/
def buildURL (base : List Char) (q : Option (List Char)) (slash enc : Bool) :
    List Char :=
  let raw := base ++ (if slash then ['/'] else []) ++
    (match q with
     | none => []
     | some qs => '?' :: qs)
  if enc then encodeAmp raw else raw

lemma encodeAmp_append (x y : List Char) :
    encodeAmp (x ++ y) = encodeAmp x ++ encodeAmp y := by
  induction x with
  | nil => rfl
  | cons c t ih => simp [encodeAmp, ih]

lemma decodeEntities_cons_ne (c : Char) (t : List Char) (h : c ≠ '&') :
    decodeEntities (c :: t) = c :: decodeEntities t := by
  rw [decodeEntities.eq_def]
  split
  all_goals simp_all

lemma decodeEntities_amp (t : List Char) :
    decodeEntities ('&' :: 'a' :: 'm' :: 'p' :: ';' :: t) =
      '&' :: decodeEntities t := rfl

lemma decodeEntities_encodeAmp (x : List Char) :
    decodeEntities (encodeAmp x) = x := by
  induction x with
  | nil => rfl
  | cons c t ih =>
    by_cases hc : c = '&'
    · subst hc
      show decodeEntities (encChar '&' ++ encodeAmp t) = '&' :: t
      rw [show encChar '&' = ['&', 'a', 'm', 'p', ';'] from rfl]
      simpa [decodeEntities_amp] using ih
    · show decodeEntities (encChar c ++ encodeAmp t) = c :: t
      rw [show encChar c = [c] from if_neg hc]
      simpa [decodeEntities_cons_ne c _ hc] using ih

lemma takeWhile_append_left (p : Char → Bool) (l1 l2 : List Char)
    (h : ∀ a ∈ l1, p a) :
    (l1 ++ l2).takeWhile p = l1 ++ l2.takeWhile p := by
  induction l1 with
  | nil => simp
  | cons c t ih =>
    have hc : p c := h c (by simp)
    simp only [List.cons_append, List.takeWhile_cons, hc, if_true]
    rw [ih (fun a ha => h a (by simp [ha]))]

lemma stripQuery_eq_self (l : List Char) (h : ∀ a ∈ l, a ≠ '?') :
    stripQuery l = l := by
  rw [stripQuery, List.takeWhile_eq_self_iff]
  intro a ha
  simpa using h a ha

lemma stripQuery_append_query (l q : List Char) (h : ∀ a ∈ l, a ≠ '?') :
    stripQuery (l ++ '?' :: q) = l := by
  rw [stripQuery, takeWhile_append_left _ _ _ (fun a ha => by simpa using h a ha)]
  simp [List.takeWhile_cons]

lemma stripSlashes_append_slash (l : List Char) :
    stripSlashes (l ++ ['/']) = stripSlashes l := by
  simp [stripSlashes, List.dropWhile]

lemma stripSlashes_eq_self (l : List Char) (h : l.getLast? ≠ some '/') :
    stripSlashes l = l := by
  rw [stripSlashes]
  rcases hrev : l.reverse with _ | ⟨c, t⟩
  · simpa using congrArg List.reverse hrev
  · have hc : c ≠ '/' := by
      intro hc
      apply h
      rw [← List.head?_reverse, hrev, hc]
      rfl
    rw [List.dropWhile_cons, if_neg (by simp [hc]), ← hrev, List.reverse_reverse]

lemma mem_encodeAmp_ne_quest (x : List Char) (h : ∀ a ∈ x, a ≠ '?') :
    ∀ a ∈ encodeAmp x, a ≠ '?' := by
  induction x with
  | nil => simp [encodeAmp]
  | cons c t ih =>
    intro a ha
    rw [show encodeAmp (c :: t) = encChar c ++ encodeAmp t from rfl,
      List.mem_append] at ha
    rcases ha with ha | ha
    · by_cases hcb : c = '&'
      · subst hcb
        rw [encChar, if_pos rfl] at ha
        exact (by decide : ∀ b ∈ (['&', 'a', 'm', 'p', ';'] : List Char),
          b ≠ '?') a ha
      · rw [encChar, if_neg hcb, List.mem_singleton] at ha
        subst ha
        exact h a (by simp)
    · exact ih (fun b hb => h b (by simp [hb])) a ha

lemma encodeAmp_getLast_ne_slash (x : List Char) (h : x.getLast? ≠ some '/') :
    (encodeAmp x).getLast? ≠ some '/' := by
  induction x using List.reverseRecOn with
  | nil => simp [encodeAmp]
  | append_singleton xs c _ =>
    have hc : c ≠ '/' := by
      intro hc
      exact h (by rw [List.getLast?_append_of_ne_nil xs (by simp), hc]; rfl)
    rw [encodeAmp_append]
    by_cases hcb : c = '&'
    · subst hcb
      rw [show encodeAmp ['&'] = ['&', 'a', 'm', 'p', ';'] from rfl,
        List.getLast?_append_of_ne_nil _ (by simp)]
      decide
    · rw [show encodeAmp [c] = encChar c ++ [] from rfl, encChar, if_neg hcb,
        List.append_nil, List.getLast?_append_of_ne_nil _ (by simp)]
      simp [hc]

lemma canonicalize_buildURL (base : List Char) (q : Option (List Char))
    (slash enc : Bool)
    (hq : ∀ a ∈ base, a ≠ '?') (hs : base.getLast? ≠ some '/')
    (hd : decodeEntities base = base) :
    canonicalize (buildURL base q slash enc) = base := by
  have hsp : ∀ a ∈ (if slash then ['/'] else ([] : List Char)), a ≠ '?' := by
    cases slash <;> simp
  have hbs : ∀ a ∈ base ++ (if slash then ['/'] else []), a ≠ '?' := by
    intro a ha
    rcases List.mem_append.mp ha with h | h
    · exact hq a h
    · exact hsp a h
  have hstripS : stripSlashes (base ++ (if slash then ['/'] else [])) = base := by
    cases slash
    · simpa using stripSlashes_eq_self base hs
    · rw [if_pos rfl, stripSlashes_append_slash, stripSlashes_eq_self base hs]
  have hebs : ∀ a ∈ encodeAmp base ++ (if slash then ['/'] else []), a ≠ '?' := by
    intro a ha
    rcases List.mem_append.mp ha with h | h
    · exact mem_encodeAmp_ne_quest base hq a h
    · exact hsp a h
  have hstripSE :
      stripSlashes (encodeAmp base ++ (if slash then ['/'] else [])) =
        encodeAmp base := by
    cases slash
    · simpa using stripSlashes_eq_self _ (encodeAmp_getLast_ne_slash base hs)
    · rw [if_pos rfl, stripSlashes_append_slash,
        stripSlashes_eq_self _ (encodeAmp_getLast_ne_slash base hs)]
  cases enc
  case false =>
    cases q
    case none =>
      show canonicalize (base ++ (if slash then ['/'] else []) ++ []) = base
      rw [List.append_nil, canonicalize, stripQuery_eq_self _ hbs, hstripS, hd]
    case some qs =>
      show canonicalize (base ++ (if slash then ['/'] else []) ++ '?' :: qs)
        = base
      rw [canonicalize, stripQuery_append_query _ _ hbs, hstripS, hd]
  case true =>
    cases q
    case none =>
      show canonicalize
        (encodeAmp (base ++ (if slash then ['/'] else []) ++ [])) = base
      rw [List.append_nil, encodeAmp_append, canonicalize,
        show encodeAmp (if slash then ['/'] else []) =
          (if slash then ['/'] else []) by cases slash <;> simp [encodeAmp, encChar],
        stripQuery_eq_self _ hebs, hstripSE, decodeEntities_encodeAmp]
    case some qs =>
      show canonicalize
        (encodeAmp (base ++ (if slash then ['/'] else []) ++ '?' :: qs)) = base
      rw [encodeAmp_append, encodeAmp_append, canonicalize,
        show encodeAmp (if slash then ['/'] else []) =
          (if slash then ['/'] else []) by cases slash <;> simp [encodeAmp, encChar],
        show encodeAmp ('?' :: qs) = '?' :: encodeAmp qs by
          simp [encodeAmp, encChar],
        stripQuery_append_query _ _ hebs, hstripSE,
        decodeEntities_encodeAmp]

/-- C2: two URLs that differ only in query string, trailing slash, or
HTML-entity-encoded characters — i.e. two syntactic variants
`buildURL base qᵢ slashᵢ encᵢ` of the same plain resource URL `base` —
canonicalize identically, so `canonicalize` is a sound dedup key for
such pairs. -/
theorem canonicalize_invariant_under_url_noise
    (base : List Char) (q1 q2 : Option (List Char)) (s1 s2 e1 e2 : Bool)
    (hq : ∀ a ∈ base, a ≠ '?') (hs : base.getLast? ≠ some '/')
    (hd : decodeEntities base = base) :
    canonicalize (buildURL base q1 s1 e1) =
      canonicalize (buildURL base q2 s2 e2) := by
  rw [canonicalize_buildURL base q1 s1 e1 hq hs hd,
    canonicalize_buildURL base q2 s2 e2 hq hs hd]

/-- C2 witness: a Canvas file URL with an entity-encoded query string
and the same URL bare with a trailing slash canonicalize identically. -/
theorem canonicalize_invariant_under_url_noise_witness :
    canonicalize (buildURL "https://canvas.example.edu/files/42".toList
        (some "download=1&verifier=x".toList) false true) =
      canonicalize (buildURL "https://canvas.example.edu/files/42".toList
        none true false) :=
  canonicalize_invariant_under_url_noise
    "https://canvas.example.edu/files/42".toList
    (some "download=1&verifier=x".toList) none false true true false
    (by decide) (by decide) (by decide)

/-! ## Crawler: recursive traversal with VisitedSet -/

/-- Modelled from the spec: the traversal state of one crawl run — the
VisitedSet of canonical URLs already processed, the traversal order (the
canonical URLs traversed so far, in order), and the worklist of canonical
URLs still to consider (the explicit-worklist form of the recursive
descent, as §9 of the spec prescribes). -/
structure TraversalState where
  visited : List String
  order : List String
  stack : List String
deriving Repr, DecidableEq

/-- Modelled from the spec: one traversal step.  Pop a canonical URL
from the worklist; if it is already in the VisitedSet skip it (the
membership check before every recursive call), otherwise add it to the
VisitedSet, record it as traversed, and push its children. -/
def traverseStep (children : String → List String) (s : TraversalState) :
    TraversalState :=
  match s.stack with
  | [] => s
  | u :: rest =>
    if u ∈ s.visited then { s with stack := rest }
    else
      { visited := u :: s.visited,
        order := s.order ++ [u],
        stack := children u ++ rest }

/-- Modelled from the spec: iterate `traverseStep` until the worklist is
empty (or the step budget runs out). -/
def traverseRun (children : String → List String) :
    Nat → TraversalState → TraversalState
  | 0, s => s
  | Nat.succ n, s =>
    if s.stack = [] then s else traverseRun children n (traverseStep children s)

/-- Modelled from the spec: a whole crawl-run traversal starting from a
root canonical URL with an empty VisitedSet. -/
def traverseFrom (children : String → List String) (fuel : Nat)
    (root : String) : TraversalState :=
  traverseRun children fuel { visited := [], order := [], stack := [root] }

/-- The cyclic folder graph of the claim: A links to B and B back to A. -/
def cycleGraph : String → List String :=
  fun u => if u = "A" then ["B"] else if u = "B" then ["A"] else []

lemma traverseStep_invariant (children : String → List String)
    (s : TraversalState)
    (h : s.order.Nodup ∧ ∀ u ∈ s.order, u ∈ s.visited) :
    (traverseStep children s).order.Nodup ∧
      ∀ u ∈ (traverseStep children s).order, u ∈ (traverseStep children s).visited := by
  obtain ⟨hnd, hsub⟩ := h
  rw [traverseStep]
  rcases hst : s.stack with _ | ⟨u, rest⟩
  · exact ⟨hnd, hsub⟩
  · by_cases hu : u ∈ s.visited
    · simpa [hu] using ⟨hnd, hsub⟩
    · simp only [if_neg hu]
      constructor
      · rw [List.nodup_append]
        refine ⟨hnd, List.nodup_singleton u, ?_⟩
        intro a ha hb
        rw [List.mem_singleton] at hb
        subst hb
        exact hu (hsub a ha)
      · intro v hv
        rcases List.mem_append.mp hv with h | h
        · exact List.mem_cons_of_mem _ (hsub v h)
        · rw [List.mem_singleton] at h
          subst h
          exact List.mem_cons_self v _

lemma traverseRun_invariant (children : String → List String) (fuel : Nat)
    (s : TraversalState)
    (h : s.order.Nodup ∧ ∀ u ∈ s.order, u ∈ s.visited) :
    (traverseRun children fuel s).order.Nodup := by
  induction fuel generalizing s with
  | zero => exact h.1
  | succ n ih =>
    rw [traverseRun]
    by_cases hst : s.stack = []
    · simp only [if_pos hst]
      exact h.1
    · simp only [if_neg hst]
      exact ih _ (traverseStep_invariant children s h)

/-- C1: the traversal visits each canonical URL at most once — the
traversal order of any run is duplicate-free, for every folder graph,
step budget and root — and on the cyclic graph A→B→A the run from A
terminates (the worklist empties and extra budget changes nothing) with
A and B each traversed exactly once. -/
theorem traversal_visits_each_canonical_url_once :
    (∀ (children : String → List String) (fuel : Nat) (root : String),
      (traverseFrom children fuel root).order.Nodup) ∧
    (traverseFrom cycleGraph 5 "A").order = ["A", "B"] ∧
    (traverseFrom cycleGraph 5 "A").stack = [] ∧
    (∀ k : Nat, traverseFrom cycleGraph (k + 5) "A" =
      traverseFrom cycleGraph 5 "A") := by
  refine ⟨?_, by decide, by decide, ?_⟩
  · intro children fuel root
    exact traverseRun_invariant children fuel _ (by simp)
  · intro k
    show traverseRun cycleGraph (k + 5) _ = _
    rw [show k + 5 = (k + 2) + 3 by omega]
    rw [traverseRun, if_neg (by decide)]
    rw [show traverseStep cycleGraph
      { visited := [], order := [], stack := ["A"] } =
      { visited := ["A"], order := ["A"], stack := ["B"] } from by decide]
    rw [traverseRun, if_neg (by decide)]
    rw [show traverseStep cycleGraph
      { visited := ["A"], order := ["A"], stack := ["B"] } =
      { visited := ["B", "A"], order := ["A", "B"], stack := ["A"] } from by decide]
    rw [traverseRun, if_neg (by decide)]
    rw [show traverseStep cycleGraph
      { visited := ["B", "A"], order := ["A", "B"], stack := ["A"] } =
      { visited := ["B", "A"], order := ["A", "B"], stack := [] } from by decide]
    have hempty : ∀ m (s : TraversalState), s.stack = [] →
        traverseRun cycleGraph m s = s := by
      intro m s hs
      cases m with
      | zero => rfl
      | succ n => rw [traverseRun, if_pos hs]
    rw [hempty (k + 2) _ rfl]
    decide

/-! ## Crawler: lazy-load pumping -/

/-- Modelled from the spec: the fixed ceiling on escalating scroll
attempts in `forceLazyLoad`. -/
def lazyLoadCeiling : Nat := 10

/-- Modelled from the spec: the `forceLazyLoad` polling loop.  `counts`
gives the visible-item count observed at each poll (the page behavior);
`remaining` is the attempt budget left, `attempt` the number of scroll
attempts performed so far, and `prev` the previously observed count
(`none` before the first poll).  The loop stops when the count is stable
across two consecutive checks or when the budget is exhausted, and
returns the number of attempts performed. -/
def lazyLoadGo (counts : Nat → Nat) : Nat → Nat → Option Nat → Nat
  | 0, attempt, _ => attempt
  | Nat.succ remaining, attempt, prev =>
    let cur := counts attempt
    if prev = some cur then attempt
    else lazyLoadGo counts remaining (attempt + 1) (some cur)

/-- Modelled from the spec: `forceLazyLoad` runs the polling loop with
the full attempt ceiling, no previous observation, and returns how many
scroll attempts were performed before giving up or stabilizing. -/
def forceLazyLoad (counts : Nat → Nat) : Nat :=
  lazyLoadGo counts lazyLoadCeiling 0 none

lemma lazyLoadGo_le (counts : Nat → Nat) (remaining : Nat) :
    ∀ (attempt : Nat) (prev : Option Nat),
      lazyLoadGo counts remaining attempt prev ≤ attempt + remaining := by
  induction remaining with
  | zero => intro attempt prev; simp [lazyLoadGo]
  | succ n ih =>
    intro attempt prev
    rw [lazyLoadGo]
    by_cases h : prev = some (counts attempt)
    · simp only [if_pos h]
      omega
    · simp only [if_neg h]
      calc lazyLoadGo counts n (attempt + 1) (some (counts attempt))
          ≤ (attempt + 1) + n := ih (attempt + 1) _
        _ = attempt + (n + 1) := by omega

/-- C5: `forceLazyLoad` terminates for every page behavior — the number
of scroll attempts never exceeds the fixed ceiling — and on a page whose
item count grows by 1 on each poll it performs exactly the ceiling
number of attempts and then returns. -/
theorem forceLazyLoad_bounded_attempts :
    (∀ counts : Nat → Nat, forceLazyLoad counts ≤ lazyLoadCeiling) ∧
    forceLazyLoad (fun i => i + 1) = lazyLoadCeiling := by
  constructor
  · intro counts
    simpa using lazyLoadGo_le counts lazyLoadCeiling 0 none
  · decide

/-! ## Crawler: link extraction and classification -/

/-- The double-quote character, written by code point to keep HTML
scanning readable. -/
def quoteChar : Char := Char.ofNat 34

/-- Modelled from the spec: scan an HTML fragment for anchor-like
`href="..."` attributes and collect the quoted URLs, in document order.
`fuel` bounds the scan (one unit per examined position). -/
def extractHrefsGo : Nat → List Char → List (List Char)
  | 0, _ => []
  | _, [] => []
  | Nat.succ f, 'h' :: 'r' :: 'e' :: 'f' :: '=' :: q :: rest =>
    if q = quoteChar then
      rest.takeWhile (fun c => c ≠ quoteChar) ::
        extractHrefsGo f (rest.dropWhile (fun c => c ≠ quoteChar))
    else extractHrefsGo f ('r' :: 'e' :: 'f' :: '=' :: q :: rest)
  | Nat.succ f, _ :: rest => extractHrefsGo f rest

/-- Modelled from the spec: the URLs of the anchor-like elements of an
HTML fragment, in document order. -/
def extractHrefs (html : List Char) : List (List Char) :=
  extractHrefsGo html.length html

/-- The node kinds a discovered link is classified into. -/
inductive NodeKind where
  | page
  | folder
  | file
  | courseModule
  | assignment
  | syllabus
deriving Repr, DecidableEq

/-- Modelled from the spec: classification of a link "by URL
shape/heuristic (folder pattern, file-id pattern, pagination pattern,
module/assignment/syllabus path segment)".  It is a pure function of the
canonical URL; pagination links are page links. -/
def classify (canon : List Char) : NodeKind :=
  if "/folders/".toList <:+: canon then NodeKind.folder
  else if "/files/".toList <:+: canon then NodeKind.file
  else if "/modules".toList <:+: canon then NodeKind.courseModule
  else if "/assignments".toList <:+: canon then NodeKind.assignment
  else if "/syllabus".toList <:+: canon then NodeKind.syllabus
  else NodeKind.page

/-- A link found during traversal: raw URL, canonical URL, node kind. -/
structure DiscoveredNode where
  rawUrl : List Char
  canonicalUrl : List Char
  kind : NodeKind
deriving Repr, DecidableEq

/-- Modelled from the spec: build the `DiscoveredNode` for one raw URL —
canonicalize it and classify the canonical URL. -/
def mkNode (u : List Char) : DiscoveredNode :=
  { rawUrl := u, canonicalUrl := canonicalize u,
    kind := classify (canonicalize u) }

/-- Modelled from the spec: `extractLinks` parses the anchor-like
elements of an HTML fragment and produces one classified
`DiscoveredNode` per extracted URL, preserving document order. -/
def extractLinks (html : List Char) : List DiscoveredNode :=
  (extractHrefs html).map mkNode

lemma extractLinks_kind_eq (html : List Char) (n : DiscoveredNode)
    (hn : n ∈ extractLinks html) : n.kind = classify n.canonicalUrl := by
  rw [extractLinks] at hn
  obtain ⟨u, _, hu⟩ := List.mem_map.mp hn
  subst hu
  rfl

/-- C6: `extractLinks` never returns two nodes with the same canonical
URL but different kinds — the kind of every returned node is the pure
function `classify` of its canonical URL, so equal canonical URLs force
equal kinds. -/
theorem extractLinks_kind_determined_by_url (html : List Char)
    (n1 n2 : DiscoveredNode) (h1 : n1 ∈ extractLinks html)
    (h2 : n2 ∈ extractLinks html)
    (hc : n1.canonicalUrl = n2.canonicalUrl) : n1.kind = n2.kind := by
  rw [extractLinks_kind_eq html n1 h1, extractLinks_kind_eq html n2 h2, hc]

/-- A concrete HTML fragment with two anchors whose hrefs differ only in
query string and trailing slash, hence share a canonical URL. -/
def demoHtml : List Char :=
  "<a href=\"/courses/1/files/42?download=1\">a</a> <a href=\"/courses/1/files/42/\">b</a>".toList

/-- A placeholder node used as the default of list indexing. -/
def defaultNode : DiscoveredNode :=
  { rawUrl := [], canonicalUrl := [], kind := NodeKind.page }

/-- C6 witness: on `demoHtml` the two extracted nodes share a canonical
URL, and the theorem of the claim yields equal kinds for them. -/
theorem extractLinks_kind_determined_by_url_witness :
    ((extractLinks demoHtml).getD 0 defaultNode).kind =
      ((extractLinks demoHtml).getD 1 defaultNode).kind :=
  extractLinks_kind_determined_by_url demoHtml
    ((extractLinks demoHtml).getD 0 defaultNode)
    ((extractLinks demoHtml).getD 1 defaultNode)
    (by decide) (by decide) (by decide)

/-! ## Crawler: storage path construction -/

/-- Modelled from the spec: the safe filename character set —
alphanumerics, dash, underscore, dot. -/
def safeChar (c : Char) : Bool :=
  c.isAlphanum || c = '-' || c = '_' || c = '.'

/-- Modelled from the spec: the fixed bound on sanitized filename
length. -/
def maxFilenameLength : Nat := 100

/-- Modelled from the spec: filename sanitization strips characters
outside the safe set and truncates to the bounded length. -/
def sanitizeFilename (cs : List Char) : List Char :=
  (cs.filter safeChar).take maxFilenameLength

/-- Modelled from the spec: the storage path of a downloaded file is
`<scope-id>/<course-id>/<sanitized-filename>` (`course_files.storage_path`
documents this shape in `backend/db/schema.sql`). -/
def storagePath (scopeId courseId filename : List Char) : List Char :=
  scopeId ++ '/' :: courseId ++ '/' :: sanitizeFilename filename

/-- C7: every storage path is exactly the scope id, the course id and
the sanitized filename joined by `/`, and the sanitized filename uses
only safe characters (alphanumerics, dash, underscore, dot) and is no
longer than the fixed bound. -/
theorem storagePath_shape_and_sanitization
    (scopeId courseId filename : List Char) :
    storagePath scopeId courseId filename =
      scopeId ++ ['/'] ++ courseId ++ ['/'] ++ sanitizeFilename filename ∧
    (∀ c ∈ sanitizeFilename filename, safeChar c) ∧
    (sanitizeFilename filename).length ≤ maxFilenameLength := by
  refine ⟨by simp [storagePath], ?_, ?_⟩
  · intro c hc
    have := List.mem_of_mem_take hc
    exact List.of_mem_filter this
  · simp [sanitizeFilename]

/-! ## Crawler: download-and-upload pipeline -/

/-- The error taxonomy of the spec (§7). -/
inductive CrawlError where
  | setupError
  | traversalError
  | downloadError
  | uploadError
deriving Repr, DecidableEq

/-- Per-run tally accumulated across the whole crawl. -/
structure CrawlStats where
  pagesVisited : Nat
  filesFound : Nat
  filesUploaded : Nat
  errorCount : Nat
deriving Repr, DecidableEq

/-- The all-zero tally a run starts from. -/
def emptyStats : CrawlStats :=
  { pagesVisited := 0, filesFound := 0, filesUploaded := 0, errorCount := 0 }

/-- Modelled from the spec: the record of a successful upload — destination
storage key, sanitized source filename, content type, byte size. -/
structure UploadRecord where
  storageKey : List Char
  filename : List Char
  contentType : String
  byteSize : Nat
deriving Repr, DecidableEq

/-- The outcome of downloading the bytes of a file: the byte size, content
type and the optional filename from response headers — or a failure. -/
inductive DownloadResult where
  | bytes (size : Nat) (contentType : String) (headerFilename : Option (List Char))
  | failed
deriving Repr, DecidableEq

/-- The answer of the storage collaborator to `createSignedUploadUrl`: a
signed URL, an "already exists" conflict, or another 4xx error. -/
inductive StorageResp where
  | signedUrl (u : String)
  | conflict
  | otherError (code : Nat)
deriving Repr, DecidableEq

/-- The result of `putBytes` against a signed URL. -/
inductive PutResult where
  | putOk
  | putFailed
deriving Repr, DecidableEq

/-- Modelled from the spec: the filename is taken from response headers
when present, else from the last path segment of the URL, and sanitized
either way. -/
def deriveFilename (canonicalUrl : List Char)
    (header : Option (List Char)) : List Char :=
  sanitizeFilename
    (match header with
     | some h => h
     | none => (canonicalUrl.reverse.takeWhile (fun c => c ≠ '/')).reverse)

/-- Modelled from the spec: `downloadAndUpload` — download the bytes,
derive the sanitized filename, request a signed upload destination, and
upload.  A storage "already exists" conflict is a success (idempotent
re-run); other storage errors and a failed put are recorded as failures
and the run moves on.  Returns the per-file outcome together with the
updated `CrawlStats`. -/
def downloadAndUpload (scopeId courseId canonicalUrl : List Char)
    (dl : DownloadResult) (storage : StorageResp) (put : PutResult)
    (stats : CrawlStats) : Except CrawlError UploadRecord × CrawlStats :=
  match dl with
  | DownloadResult.failed =>
    (Except.error CrawlError.downloadError,
     { stats with errorCount := stats.errorCount + 1 })
  | DownloadResult.bytes size ctype header =>
    let fname := deriveFilename canonicalUrl header
    let record : UploadRecord :=
      { storageKey := storagePath scopeId courseId fname,
        filename := fname, contentType := ctype, byteSize := size }
    match storage with
    | StorageResp.conflict =>
      (Except.ok record, { stats with filesUploaded := stats.filesUploaded + 1 })
    | StorageResp.otherError _ =>
      (Except.error CrawlError.uploadError,
       { stats with errorCount := stats.errorCount + 1 })
    | StorageResp.signedUrl _ =>
      match put with
      | PutResult.putOk =>
        (Except.ok record,
         { stats with filesUploaded := stats.filesUploaded + 1 })
      | PutResult.putFailed =>
        (Except.error CrawlError.uploadError,
         { stats with errorCount := stats.errorCount + 1 })

/-- C3: when the storage backend answers the upload request with an
"already exists" conflict, `downloadAndUpload` returns a success
`UploadRecord` — not an error — and the conflict is tallied as a
success in `CrawlStats` (uploaded count incremented, error count
unchanged), identically for every put behavior, i.e. without any retry
against storage. -/
theorem downloadAndUpload_conflict_is_success
    (scopeId courseId canonicalUrl : List Char) (size : Nat)
    (ctype : String) (header : Option (List Char)) (put : PutResult)
    (stats : CrawlStats) :
    (downloadAndUpload scopeId courseId canonicalUrl
        (DownloadResult.bytes size ctype header) StorageResp.conflict put
        stats).1 =
      Except.ok
        { storageKey := storagePath scopeId courseId
            (deriveFilename canonicalUrl header),
          filename := deriveFilename canonicalUrl header,
          contentType := ctype, byteSize := size } ∧
    (downloadAndUpload scopeId courseId canonicalUrl
        (DownloadResult.bytes size ctype header) StorageResp.conflict put
        stats).2 =
      { stats with filesUploaded := stats.filesUploaded + 1 } := by
  exact ⟨rfl, rfl⟩

/-! ## Crawler: whole-run error propagation -/

/-- What happens at one node of the course during a run: a page that
loads and parses, a file whose download+upload succeeds, or a node whose
processing fails (network, parse, download or upload error). -/
inductive NodeOutcome where
  | okPage
  | okFile
  | failNode
deriving Repr, DecidableEq

mutual
/-- Modelled from the spec: a course as the crawler sees it — each node
has an outcome and child nodes (folders/pages reached from it). -/
inductive CourseTree where
  | node (outcome : NodeOutcome) (children : CourseForest)
deriving Repr, DecidableEq

/-- A list of sibling course subtrees. -/
inductive CourseForest where
  | nil
  | cons (t : CourseTree) (ts : CourseForest)
deriving Repr, DecidableEq
end

/-- Tally the outcome of one node into the `CrawlStats` of the run. -/
def recordOutcome (o : NodeOutcome) (s : CrawlStats) : CrawlStats :=
  match o with
  | NodeOutcome.okPage => { s with pagesVisited := s.pagesVisited + 1 }
  | NodeOutcome.okFile =>
    { s with filesFound := s.filesFound + 1,
             filesUploaded := s.filesUploaded + 1 }
  | NodeOutcome.failNode => { s with errorCount := s.errorCount + 1 }

mutual
/-- Modelled from the spec: process one node.  A failing node records
its failure and its subtree is skipped; an ok node is tallied and its
children are traversed.  No per-node failure escapes as an exception —
the function always returns updated stats. -/
def crawlTree (t : CourseTree) (s : CrawlStats) : CrawlStats :=
  match t with
  | CourseTree.node NodeOutcome.failNode _ =>
    recordOutcome NodeOutcome.failNode s
  | CourseTree.node o children => crawlForest children (recordOutcome o s)

/-- Modelled from the spec: process sibling subtrees in order; every
sibling is processed no matter how the previous ones fared. -/
def crawlForest (ts : CourseForest) (s : CrawlStats) : CrawlStats :=
  match ts with
  | CourseForest.nil => s
  | CourseForest.cons t rest => crawlForest rest (crawlTree t s)
end

/-- Componentwise sum of two tallies. -/
def addStats (a b : CrawlStats) : CrawlStats :=
  { pagesVisited := a.pagesVisited + b.pagesVisited,
    filesFound := a.filesFound + b.filesFound,
    filesUploaded := a.filesUploaded + b.filesUploaded,
    errorCount := a.errorCount + b.errorCount }

mutual
/-- The pure per-subtree summary: what one subtree contributes to the
stats of the run (one error for a failing node, its subtree skipped;
otherwise the own tally of the node plus those of its children). -/
def treeStats (t : CourseTree) : CrawlStats :=
  match t with
  | CourseTree.node NodeOutcome.failNode _ =>
    { emptyStats with errorCount := 1 }
  | CourseTree.node o children =>
    addStats (recordOutcome o emptyStats) (forestStats children)

/-- The pure summary of a forest: the sum over the siblings. -/
def forestStats (ts : CourseForest) : CrawlStats :=
  match ts with
  | CourseForest.nil => emptyStats
  | CourseForest.cons t rest => addStats (treeStats t) (forestStats rest)
end

/-- Modelled from the spec: `crawl(target)` — fail with a `SetupError`
when authentication or storage is unavailable; otherwise traverse the
whole course and return the accumulated `CrawlStats`, whatever happened
at individual nodes. -/
def crawl (authOk storageReachable : Bool) (course : CourseForest) :
    Except CrawlError CrawlStats :=
  if !authOk || !storageReachable then Except.error CrawlError.setupError
  else Except.ok (crawlForest course emptyStats)

mutual
theorem crawlTree_add (t : CourseTree) (s : CrawlStats) :
    crawlTree t s = addStats s (treeStats t) := by
  cases t with
  | node o children =>
    cases o <;>
      simp [crawlTree, treeStats, crawlForest_add children, recordOutcome,
        addStats, emptyStats] <;> omega

theorem crawlForest_add (ts : CourseForest) (s : CrawlStats) :
    crawlForest ts s = addStats s (forestStats ts) := by
  cases ts with
  | nil => simp [crawlForest, forestStats, addStats, emptyStats]
  | cons t rest =>
    simp [crawlForest, forestStats, crawlTree_add t, crawlForest_add rest,
      addStats]
    omega
end

/-- C4: `crawl` raises a top-level failure exactly when setup fails
(authentication or storage unreachable); otherwise it returns the
`CrawlStats` value summarizing the whole course — every per-node failure
is tallied into the stats (`treeStats` counts one error per failing
node), the siblings of a failing node are still processed, and a failing node
only records its error and skips its own subtree. -/
theorem crawl_fails_only_on_setup (authOk storageReachable : Bool)
    (course : CourseForest) :
    ((∃ e, crawl authOk storageReachable course = Except.error e) ↔
      (authOk = false ∨ storageReachable = false)) ∧
    (authOk = true → storageReachable = true →
      crawl authOk storageReachable course =
        Except.ok (addStats emptyStats (forestStats course))) ∧
    (∀ (t : CourseTree) (rest : CourseForest) (s : CrawlStats),
      crawlForest (CourseForest.cons t rest) s =
        crawlForest rest (crawlTree t s)) ∧
    (∀ (children : CourseForest) (s : CrawlStats),
      crawlTree (CourseTree.node NodeOutcome.failNode children) s =
        { s with errorCount := s.errorCount + 1 }) := by
  refine ⟨?_, ?_, ?_, ?_⟩
  · cases authOk <;> cases storageReachable <;> simp [crawl]
  · intro ha hs
    subst ha hs
    rw [crawl]
    simp [crawlForest_add course]
  · intro t rest s
    rw [crawlForest]
  · intro children s
    rw [crawlTree, recordOutcome]

/-- A concrete course: a page containing a failing folder (whose file
child is skipped) and, after the failure, a sibling file that is still
uploaded. -/
def demoCourse : CourseForest :=
  CourseForest.cons
    (CourseTree.node NodeOutcome.okPage
      (CourseForest.cons
        (CourseTree.node NodeOutcome.failNode
          (CourseForest.cons (CourseTree.node NodeOutcome.okFile
            CourseForest.nil) CourseForest.nil))
        (CourseForest.cons (CourseTree.node NodeOutcome.okFile
          CourseForest.nil) CourseForest.nil)))
    CourseForest.nil

/-- C4 witness: with setup succeeding, the crawl of `demoCourse`
returns the summary stats even though a node inside failed. -/
theorem crawl_fails_only_on_setup_witness :
    crawl true true demoCourse =
      Except.ok (addStats emptyStats (forestStats demoCourse)) :=
  (crawl_fails_only_on_setup true true demoCourse).2.1 rfl rfl

/-! ## Theorems about the chat frontend and content script -/

/-- C8: when the trimmed input is empty, `sendMessage` changes nothing
and issues no HTTP request; when it is non-empty, it appends exactly two
messages — the user message carrying the trimmed input, then an AI
placeholder with empty content and `isStreaming` set — sets the
streaming flag and clears the input. -/
theorem sendMessage_guards_on_trimmed_input (st : ChatState) :
    (jsTrim st.input = "" → sendMessage st = (st, [])) ∧
    (jsTrim st.input ≠ "" →
      (sendMessage st).1.messages =
        st.messages ++
          [{ role := "user", content := jsTrim st.input },
           { role := "ai", content := "", isStreaming := true }] ∧
      (sendMessage st).1.isStreaming = true ∧
      (sendMessage st).1.input = "") := by
  constructor
  · intro h
    simp [sendMessage, h]
  · intro h
    refine ⟨?_, ?_, ?_⟩ <;> simp [sendMessage, h]

/-- C8 witness: on whitespace-only input `sendMessage` is a no-op with
no requests; on input `" hi "` it appends the trimmed user message and
the streaming AI placeholder. -/
theorem sendMessage_guards_on_trimmed_input_witness :
    sendMessage
        { messages := [], input := "   ", isStreaming := false,
          buttonVariant := "A" } =
      ({ messages := [], input := "   ", isStreaming := false,
         buttonVariant := "A" }, []) ∧
    (sendMessage
        { messages := [], input := " hi ", isStreaming := false,
          buttonVariant := "A" }).1.messages =
      [{ role := "user", content := "hi" },
       { role := "ai", content := "", isStreaming := true }] := by
  constructor
  · exact (sendMessage_guards_on_trimmed_input _).1 (by decide)
  · rw [((sendMessage_guards_on_trimmed_input _).2 (by decide)).1]
    decide

/-- C9: in extension mode, whenever the stored session id differs from
the freshly generated `Date.now()` string (as it does on every mount at
a fresh instant, refresh or not), the mount-time session check removes
the stored chat history, resets the message list, and stores the fresh
id. -/
theorem sessionCheck_clears_chat_on_mount (now : Nat) (st : WebState)
    (h : storeGet st.sessionStore SESSION_KEY ≠ some (toString now)) :
    sessionCheck true now st =
      { localStore := storeRemove st.localStore STORAGE_KEY,
        sessionStore := storeSet st.sessionStore SESSION_KEY (toString now),
        messages := [] } := by
  rw [sessionCheck]
  rcases hlast : storeGet st.sessionStore SESSION_KEY with _ | s
  · simp [hlast, optTruthy]
  · rw [hlast] at h
    simp [hlast, optTruthy, h]

/-- C9 witness: a mount at instant 1700000000000 with an older stored
session id clears the stored history and resets the messages. -/
theorem sessionCheck_clears_chat_on_mount_witness :
    sessionCheck true 1700000000000
      { localStore := [(STORAGE_KEY, "saved-history")],
        sessionStore := [(SESSION_KEY, "1699999999999")],
        messages := [{ role := "user", content := "hello" }] } =
      { localStore := [],
        sessionStore := [(SESSION_KEY, "1700000000000")],
        messages := [] } := by
  rw [sessionCheck_clears_chat_on_mount 1700000000000 _ (by decide)]
  decide

/-- C10: the window-message listener of the content script does nothing for
an event whose origin is not the configured frontend origin: the page
state is unchanged and no message is forwarded. -/
theorem messageListener_ignores_foreign_origin (ev : MessageEvent)
    (st : PageState) (h : ev.origin ≠ FRONTEND_URL) :
    messageListener ev st = (st, []) := by
  rw [messageListener, if_pos h]

/-- C10 witness: an open-fullscreen message from a foreign origin leaves
the collapsed-sidebar page state untouched and sends nothing. -/
theorem messageListener_ignores_foreign_origin_witness :
    messageListener
      { origin := "https://evil.example.com",
        data := some ("coursekey-open-fullscreen", []) }
      { overlayHidden := true, sidebarExpanded := false,
        toggleVisible := true, bodyScrollLocked := false,
        expandBtnPresent := false } =
      ({ overlayHidden := true, sidebarExpanded := false,
         toggleVisible := true, bodyScrollLocked := false,
         expandBtnPresent := false }, []) :=
  messageListener_ignores_foreign_origin _ _ (by decide)

end CourseKey
